import Mathlib

/-!
Shallow embedding of the dataset-maker program (draw_dataset.py).

The program keeps a list of labeled 2D points (myData) mirrored onto tkinter
canvas markers (myPointsID).  The external collaborators (the tkinter canvas,
the file dialogs, numpy sampling, the filesystem) are modelled as explicit
state or oracles; the Dataset methods are translated one to one from the
source.  Coordinates are rationals; tkinter event coordinates are integers in
reality but the code never relies on that.
-/

/-- An oval drawn on the canvas: the two corner coordinates passed to
create_oval together with its fill color. -/
structure Oval where
  x0 : Rat
  y0 : Rat
  x1 : Rat
  y1 : Rat
  fill : String
deriving DecidableEq

/-- Model of the tk.Canvas used by the program: create_oval returns a fresh
integer item id (tkinter allocates increasing ids starting from 1) and
registers the item; delete removes an item by id. -/
structure Canvas where
  nextId : Nat
  items : List (Nat × Oval)
deriving DecidableEq

def Canvas.create_oval (c : Canvas) (x0 y0 x1 y1 : Rat) (fill : String) : Nat × Canvas :=
  (c.nextId, ⟨c.nextId + 1, c.items ++ [(c.nextId, ⟨x0, y0, x1, y1, fill⟩)]⟩)

def Canvas.delete (c : Canvas) (i : Nat) : Canvas :=
  ⟨c.nextId, c.items.filter (fun p => p.1 ≠ i)⟩

/-- Look up the oval currently registered under an item id. -/
def Canvas.find (c : Canvas) (i : Nat) : Option Oval :=
  (c.items.find? (fun p => p.1 = i)).map Prod.snd

/-- One element of myData: a coordinate pair and the color the point was
created with. -/
structure Point where
  x : Rat
  y : Rat
  color : String
deriving DecidableEq

/-- The Dataset class state.  last_drawn_x and last_drawn_y are always set and
cleared together in the source, so they are modelled as one optional pair. -/
structure Dataset where
  myData : List Point
  myPointsID : List Nat
  sizePoint : Rat
  classPoint : String
  sigmaScatter : Rat
  nbrPointsScatter : Rat
  last_drawn : Option (Rat × Rat)
  threshold : Rat
  canvas : Canvas
deriving DecidableEq

/-- The constructor of Dataset: empty store, sizePoint 2, class blue,
threshold 5, no press recorded yet, fresh canvas. -/
def Dataset.init (sigmaScatter nbrPointsScatter : Rat) : Dataset :=
  { myData := []
    myPointsID := []
    sizePoint := 2
    classPoint := "blue"
    sigmaScatter := sigmaScatter
    nbrPointsScatter := nbrPointsScatter
    last_drawn := none
    threshold := 5
    canvas := ⟨1, []⟩ }

def Dataset.setClass (d : Dataset) (color : String) : Dataset :=
  { d with classPoint := color }

/-- Translation of Dataset._draw_point: create the marker, append its id to
myPointsID and the point to myData. -/
def Dataset.draw_point (d : Dataset) (x y : Rat) (pointClass : String) : Dataset :=
  let r := d.canvas.create_oval (x - d.sizePoint) (y - d.sizePoint)
      (x + d.sizePoint) (y + d.sizePoint) pointClass
  { d with
    canvas := r.2
    myPointsID := d.myPointsID ++ [r.1]
    myData := d.myData ++ [⟨x, y, pointClass⟩] }

/-- The list lst_to_del built by Dataset._delete_points: the indices i of the
points whose squared distance to the event position is at most thr. -/
def delIndices (data : List Point) (ex ey thr : Rat) : List Nat :=
  ((data.enum.filter (fun p => (p.2.x - ex) ^ 2 + (p.2.y - ey) ^ 2 ≤ thr)).map Prod.fst)

/-- Translation of Dataset._delete_points: the erase radius is the current
sigmaScatter value; every point within it of the event position is deleted
from the canvas, and both parallel lists are filtered by the same index set. -/
def Dataset.delete_points (d : Dataset) (ex ey : Rat) : Dataset :=
  let thr := d.sigmaScatter * d.sigmaScatter
  let lst_to_del := delIndices d.myData ex ey thr
  let canvas := lst_to_del.foldl (fun c i =>
    match d.myPointsID.get? i with
    | some pid => c.delete pid
    | none => c) d.canvas
  { d with
    canvas := canvas
    myData := (d.myData.enum.filter (fun p => p.1 ∉ lst_to_del)).map Prod.snd
    myPointsID := (d.myPointsID.enum.filter (fun p => p.1 ∉ lst_to_del)).map Prod.snd }

/-- Model of numpy.random.normal (an external collaborator): a draw from a
Gaussian with location loc and scale s is loc + s * z where z is a
standard-normal draw; the draws are supplied by the noise oracle. -/
def normal (loc scale : Rat) (size : Nat) (noise : Nat → Rat) : List Rat :=
  (List.range size).map (fun i => loc + scale * noise i)

/-- The body of the loop in Dataset.makeScatter: append one sampled point and
its freshly created marker. -/
def Dataset.addSample (d : Dataset) (xy : Rat × Rat) : Dataset :=
  let r := d.canvas.create_oval (xy.1 - d.sizePoint) (xy.2 - d.sizePoint)
      (xy.1 + d.sizePoint) (xy.2 + d.sizePoint) d.classPoint
  { d with
    myData := d.myData ++ [⟨xy.1, xy.2, d.classPoint⟩]
    canvas := r.2
    myPointsID := d.myPointsID ++ [r.1] }

/-- Translation of Dataset.makeScatter: clamp sigma to the interval from 0 to
50 and the point count to the interval from 0 to 1000, truncate the count to
an integer, sample the two coordinate lists, and add one point per sample. -/
def Dataset.makeScatter (d : Dataset) (ex ey : Rat) (noiseX noiseY : Nat → Rat) : Dataset :=
  let ss := max (min d.sigmaScatter 50) 0
  let ps := max (min d.nbrPointsScatter 1000) 0
  let listX := normal ex ss ps.floor.toNat noiseX
  let listY := normal ey ss ps.floor.toNat noiseY
  (listX.zip listY).foldl Dataset.addSample d

/-- Translation of Dataset.pressButton: record the press position, then erase
or scatter depending on the current class. -/
def Dataset.pressButton (d : Dataset) (ex ey : Rat) (noiseX noiseY : Nat → Rat) : Dataset :=
  let d1 : Dataset := { d with last_drawn := some (ex, ey) }
  if d1.classPoint = "erase" then d1.delete_points ex ey
  else d1.makeScatter ex ey noiseX noiseY

/-- Translation of Dataset.moveButton: a no-op when no press is recorded;
otherwise re-press at the new position when the squared displacement from the
last sampled position is at least threshold squared. -/
def Dataset.moveButton (d : Dataset) (ex ey : Rat) (noiseX noiseY : Nat → Rat) : Dataset :=
  match d.last_drawn with
  | none => d
  | some (lx, ly) =>
    let move_distance := (lx - ex) ^ 2 + (ly - ey) ^ 2
    if move_distance ≥ d.threshold ^ 2 then d.pressButton ex ey noiseX noiseY else d

/-- Translation of Dataset.releaseButton: one final move check, then clear the
recorded press position. -/
def Dataset.releaseButton (d : Dataset) (ex ey : Rat) (noiseX noiseY : Nat → Rat) : Dataset :=
  let d1 := d.moveButton ex ey noiseX noiseY
  { d1 with last_drawn := none }

/-- Translation of Dataset.clearCanvas: delete every marker, empty both
lists. -/
def Dataset.clearCanvas (d : Dataset) : Dataset :=
  let canvas := d.myPointsID.foldl Canvas.delete d.canvas
  { d with canvas := canvas, myPointsID := [], myData := [] }

/-- The fault raised by popping an empty Python list, named EmptyStoreError in
the design document. -/
inductive StoreError where
  | emptyStore
deriving DecidableEq

/-- Translation of Dataset.undo: pop the last point, then pop the last marker
id and delete that marker.  A pop on an empty list raises, leaving the state
mutated only by the pops that already succeeded. -/
def Dataset.undo (d : Dataset) : Dataset × Option StoreError :=
  match d.myData.getLast? with
  | none => (d, some .emptyStore)
  | some _ =>
    let d1 : Dataset := { d with myData := d.myData.dropLast }
    match d.myPointsID.getLast? with
    | none => (d1, some .emptyStore)
    | some pid =>
      ({ d1 with myPointsID := d.myPointsID.dropLast, canvas := d.canvas.delete pid }, none)

/-- One cell of the saved or loaded table: a number or a label string, the two
value kinds that occur in the color, x and y columns. -/
inductive Cell where
  | num (q : Rat)
  | str (s : String)
deriving DecidableEq

/-- The flat table handed to or read from the csv collaborator: a header row
of column names and the data rows. -/
structure DataFrame where
  cols : List String
  rows : List (List Cell)
deriving DecidableEq

/-- The pandas replace mapping red to 0, green to 1, blue to 2 applied to one
cell: known labels become integer codes, any other value is left unchanged. -/
def encodeColor (s : String) : Cell :=
  if s = "red" then .num 0
  else if s = "green" then .num 1
  else if s = "blue" then .num 2
  else .str s

/-- The table built by Dataset.saveData: header x, y, color; one row per
stored point in store order, coordinates written raw (the historical
normalization step is commented out in the source), color encoded. -/
def Dataset.saveTable (d : Dataset) : DataFrame :=
  { cols := ["x", "y", "color"]
    rows := d.myData.map (fun p => [.num p.x, .num p.y, encodeColor p.color]) }

/-- Translation of Dataset.saveData: the save dialog is an oracle returning
none on cancellation, in which case the method returns at once; otherwise the
table is written to the chosen path.  The store itself is never mutated. -/
def Dataset.saveData (d : Dataset) (dialog : Option String) :
    Dataset × Option (String × DataFrame) :=
  match dialog with
  | none => (d, none)
  | some path => (d, some (path, d.saveTable))

/-- A fault raised while reading or replaying the table, named
InvalidFileError in the design document. -/
inductive FileError where
  | invalidFile
deriving DecidableEq

/-- The pandas replace mapping 0 to red, 1 to green, 2 to blue applied to one
cell: known codes become labels, any other value is left unchanged. -/
def decodeColor (c : Cell) : Cell :=
  if c = .num 0 then .str "red"
  else if c = .num 1 then .str "green"
  else if c = .num 2 then .str "blue"
  else c

/-- Replace the cell at one column index of a row, the row-wise view of the
pandas column assignment on the color column. -/
def decodeRow (ci : Nat) (row : List Cell) : List Cell :=
  match row.get? ci with
  | some c => row.set ci (decodeColor c)
  | none => row

/-- Read the cell of a row under a named column of the table header. -/
def DataFrame.cell (df : DataFrame) (row : List Cell) (col : String) : Option Cell :=
  (df.cols.indexOf? col).bind row.get?

/-- One row of the apply loop in Dataset.loadData: draw_point on the x, y and
color cells.  The Python call raises when a column is missing from the row,
when a coordinate cell is not numeric (string minus int is a TypeError), or
when the fill is not a string color name (an integer code the replace left
alone is not a valid Tcl color). -/
def Dataset.drawRow (d : Dataset) (df : DataFrame) (row : List Cell) :
    Dataset × Option FileError :=
  match df.cell row "x", df.cell row "y", df.cell row "color" with
  | some (.num x), some (.num y), some (.str c) => (d.draw_point x y c, none)
  | _, _, _ => (d, some .invalidFile)

/-- The apply loop of Dataset.loadData: rows are replayed in order; the first
failing row stops the loop with the rows before it already applied to the
store, exactly as the in-place Python mutation behaves under an exception. -/
def Dataset.importRows (d : Dataset) (df : DataFrame) :
    List (List Cell) → Dataset × Option FileError
  | [] => (d, none)
  | row :: rest =>
    match d.drawRow df row with
    | (d1, none) => d1.importRows df rest
    | (d1, some e) => (d1, some e)

/-- Translation of Dataset.loadData: the open dialog is an oracle returning
none on cancellation, in which case read_csv raises on the empty selection
and nothing is mutated; the filesystem oracle returns the parsed table of a
path, or none when read_csv fails.  The color column is decoded (a missing
color column is a KeyError), then every row is replayed through draw_point. -/
def Dataset.loadData (d : Dataset) (dialog : Option String)
    (fs : String → Option DataFrame) : Dataset × Option FileError :=
  match dialog with
  | none => (d, some .invalidFile)
  | some path =>
    match fs path with
    | none => (d, some .invalidFile)
    | some df =>
      match df.cols.indexOf? "color" with
      | none => (d, some .invalidFile)
      | some ci =>
        let df1 : DataFrame := { df with rows := df.rows.map (decodeRow ci) }
        d.importRows df1 df1.rows

/-- One user-level operation on the store, covering every event handler and
button of the program, with the oracles each operation consumes. -/
inductive Op where
  | press (ex ey : Rat) (noiseX noiseY : Nat → Rat)
  | move (ex ey : Rat) (noiseX noiseY : Nat → Rat)
  | release (ex ey : Rat) (noiseX noiseY : Nat → Rat)
  | addPoint (x y : Rat) (c : String)
  | setClass (c : String)
  | setSigma (v : Rat)
  | setNbrPoints (v : Rat)
  | clear
  | undo
  | save (dialog : Option String)
  | load (dialog : Option String) (fs : String → Option DataFrame)

/-- Apply one operation to the store.  Operations that can fail (undo on an
empty store, a failing load) leave the state the Python object holds after
the exception escapes the handler. -/
def Dataset.applyOp (d : Dataset) : Op → Dataset
  | .press ex ey nx ny => d.pressButton ex ey nx ny
  | .move ex ey nx ny => d.moveButton ex ey nx ny
  | .release ex ey nx ny => d.releaseButton ex ey nx ny
  | .addPoint x y c => d.draw_point x y c
  | .setClass c => d.setClass c
  | .setSigma v => { d with sigmaScatter := v }
  | .setNbrPoints v => { d with nbrPointsScatter := v }
  | .clear => d.clearCanvas
  | .undo => d.undo.1
  | .save dialog => (d.saveData dialog).1
  | .load dialog fs => (d.loadData dialog fs).1

/-- The oval draw_point and makeScatter create for a point. -/
def ovalOf (sz : Rat) (p : Point) : Oval :=
  ⟨p.x - sz, p.y - sz, p.x + sz, p.y + sz, p.color⟩

/-- Every canvas item id was allocated before the next fresh id. -/
def Canvas.keyBound (c : Canvas) : Prop :=
  ∀ p ∈ c.items, p.1 < c.nextId

/-- The alignment invariant of the store: both lists have the same length and
the marker registered under the id at index i is the marker of the point at
index i. -/
def Dataset.Aligned (d : Dataset) : Prop :=
  d.myData.length = d.myPointsID.length ∧
  ∀ i (h1 : i < d.myPointsID.length) (h2 : i < d.myData.length),
    d.canvas.find (d.myPointsID.get ⟨i, h1⟩)
      = some (ovalOf d.sizePoint (d.myData.get ⟨i, h2⟩))

/-- The full inductive invariant: alignment, no marker id is tracked twice,
and every canvas id is below the allocator watermark. -/
def Dataset.WF (d : Dataset) : Prop :=
  d.Aligned ∧ d.myPointsID.Nodup ∧ d.canvas.keyBound

/-- Modelled from the spec: the fixed export code of the file format, red 0,
green 1, blue 2.  Stated from the design document to compare against the
table the implementation builds. -/
def colorCode (s : String) : Rat :=
  if s = "red" then 0 else if s = "green" then 1 else 2

/-- Modelled from the spec: one exported row carries the raw x and y
coordinates followed by the integer color code, never normalized. -/
def specExportRow (p : Point) : List Cell :=
  [.num p.x, .num p.y, .num (colorCode p.color)]

/-- A store built by a sequence of addPoint calls on a fresh Dataset. -/
def buildFromAdds (sv nv : Rat) (pts : List Point) : Dataset :=
  pts.foldl (fun e p => e.draw_point p.x p.y p.color) (Dataset.init sv nv)

/-- The store of the erase example: points at the origin, at distance 3 and at
distance well beyond the radius, with sigma 5 as erase radius. -/
def eraseExample : Dataset :=
  (((Dataset.init 5 1).draw_point 0 0 "red").draw_point 3 0 "red").draw_point 10 10 "red"

/-- The store of the undo example: a red point then a blue point. -/
def undoExample : Dataset :=
  ((Dataset.init 10 5).draw_point 1 1 "red").draw_point 2 2 "blue"

/-- A mid-drag state in draw mode: last sampled position at the origin, sigma
0 and one point per press so a press adds exactly the click point. -/
def moveExample : Dataset :=
  { Dataset.init 0 1 with classPoint := "red", last_drawn := some (0, 0) }

/-- A table whose color column is missing. -/
def dfMissingColor : DataFrame := ⟨["x", "y"], [[.num 1, .num 2]]⟩

/-- A table whose x cell is not numeric. -/
def dfBadCoord : DataFrame := ⟨["x", "y", "color"], [[.str "abc", .num 2, .num 0]]⟩

/-- A table whose color code is outside the three known codes. -/
def dfBadCode : DataFrame := ⟨["x", "y", "color"], [[.num 1, .num 2, .num 5]]⟩

/-- A table with one good row followed by one row with an unknown color
code. -/
def dfGoodThenBad : DataFrame :=
  ⟨["x", "y", "color"], [[.num 1, .num 2, .num 0], [.num 3, .num 4, .num 9]]⟩

/-! ### Canvas lemmas -/

theorem Canvas.find_delete (c : Canvas) (i j : Nat) :
    (c.delete i).find j = if j = i then none else c.find j := by
  unfold Canvas.delete Canvas.find
  by_cases h : j = i
  · subst h
    simp only [if_pos rfl]
    rw [List.find?_eq_none.mpr]
    · rfl
    · intro p hp
      have := (List.mem_filter.mp hp).2
      simp only [decide_not] at this
      intro hpj
      have hj : p.1 = j := of_decide_eq_true hpj
      have : p.1 ≠ j := by simpa using this
      exact this hj
  · simp only [if_neg h]
    congr 1
    induction c.items with
    | nil => rfl
    | cons a t ih =>
      by_cases ha : a.1 = j
      · have hfilter : (decide ¬(a.1 = i)) = true := by
          simp only [decide_eq_true_eq]
          intro hai; exact h (ha ▸ hai ▸ rfl)
        simp only [List.filter_cons, hfilter, if_pos]
        rw [List.find?_cons_of_pos, List.find?_cons_of_pos] <;> simp [ha]
      · by_cases hai : a.1 = i
        · have hfilter : (decide ¬(a.1 = i)) = false := by simp [hai]
          simp only [List.filter_cons, hfilter]
          rw [if_neg (by simp)]
          rw [List.find?_cons_of_neg _ (by simp [ha])]
          exact ih
        · have hfilter : (decide ¬(a.1 = i)) = true := by simp [hai]
          simp only [List.filter_cons, hfilter, if_pos]
          rw [List.find?_cons_of_neg _ (by simp [ha]), List.find?_cons_of_neg _ (by simp [ha])]
          exact ih

theorem Canvas.keyBound_delete (c : Canvas) (i : Nat) (h : c.keyBound) :
    (c.delete i).keyBound := by
  intro p hp
  exact h p (List.mem_of_mem_filter hp)

theorem Canvas.nextId_delete (c : Canvas) (i : Nat) : (c.delete i).nextId = c.nextId := rfl

theorem Canvas.find_mem (c : Canvas) (i : Nat) (o : Oval) (h : c.find i = some o) :
    (i, o) ∈ c.items := by
  unfold Canvas.find at h
  obtain ⟨q, hq, hqo⟩ := Option.map_eq_some'.mp h
  have hmem := List.mem_of_find?_eq_some hq
  have hkey' := List.find?_some hq
  have hkey : q.1 = i := of_decide_eq_true hkey'
  have hqio : q = (i, o) := by
    cases q; simp only [Prod.mk.injEq]; exact ⟨hkey, hqo⟩
  exact hqio ▸ hmem

theorem Canvas.lt_nextId_of_find (c : Canvas) (i : Nat) (o : Oval)
    (hb : c.keyBound) (h : c.find i = some o) : i < c.nextId :=
  hb (i, o) (c.find_mem i o h)

theorem Canvas.find_create_old (c : Canvas) (x0 y0 x1 y1 : Rat) (f : String)
    (i : Nat) (o : Oval) (h : c.find i = some o) :
    (c.create_oval x0 y0 x1 y1 f).2.find i = some o := by
  unfold Canvas.create_oval Canvas.find at *
  rw [List.find?_append]
  obtain ⟨p, hp, hpo⟩ := Option.map_eq_some'.mp h
  rw [hp]
  simp [hpo]

theorem Canvas.find_create_self (c : Canvas) (x0 y0 x1 y1 : Rat) (f : String)
    (hb : c.keyBound) :
    (c.create_oval x0 y0 x1 y1 f).2.find c.nextId = some ⟨x0, y0, x1, y1, f⟩ := by
  unfold Canvas.create_oval Canvas.find
  rw [List.find?_append]
  have h1 : c.items.find? (fun p => p.1 = c.nextId) = none := by
    rw [List.find?_eq_none]
    intro p hp
    have := hb p hp
    simp only [decide_eq_true_eq]
    omega
  rw [h1]
  simp

theorem Canvas.keyBound_create (c : Canvas) (x0 y0 x1 y1 : Rat) (f : String)
    (hb : c.keyBound) : (c.create_oval x0 y0 x1 y1 f).2.keyBound := by
  intro p hp
  unfold Canvas.create_oval at hp
  simp only [List.mem_append, List.mem_singleton] at hp
  rcases hp with hp | hp
  · have := hb p hp
    simp only [Canvas.create_oval]
    omega
  · subst hp
    simp [Canvas.create_oval]

/-! ### delIndices membership -/

theorem mem_delIndices (data : List Point) (ex ey thr : Rat) (i : Nat) :
    i ∈ delIndices data ex ey thr ↔
      ∃ h : i < data.length,
        ((data.get ⟨i, h⟩).x - ex) ^ 2 + ((data.get ⟨i, h⟩).y - ey) ^ 2 ≤ thr := by
  unfold delIndices
  simp only [List.mem_map, List.mem_filter, List.mem_enum_iff_getElem?]
  constructor
  · rintro ⟨⟨j, p⟩, ⟨hget, hcond⟩, hj⟩
    simp only at hget hcond hj
    have hi : j < data.length := by
      by_contra hge
      rw [List.getElem?_eq_none (by omega)] at hget
      exact Option.noConfusion hget
    have hp : data[j] = p := by
      rw [List.getElem?_eq_getElem hi] at hget
      exact Option.some.inj hget
    subst hj
    refine ⟨hi, ?_⟩
    rw [List.get_eq_getElem, hp]
    exact of_decide_eq_true hcond
  · rintro ⟨hi, hcond⟩
    refine ⟨(i, data.get ⟨i, hi⟩), ⟨?_, ?_⟩, rfl⟩
    · simp [List.getElem?_eq_getElem hi]
    · exact decide_eq_true hcond

/-! ### Filtering two parallel lists by the same index set -/

theorem enum_eq_enumFrom {α : Type _} (l : List α) : l.enum = l.enumFrom 0 := rfl

theorem zip_self_eq_map {α : Type _} : ∀ l : List α, l.zip l = l.map (fun a => (a, a))
  | [] => rfl
  | a :: t => by rw [List.zip_cons_cons, List.map_cons, zip_self_eq_map t]

theorem map_snd_filter_enumFrom {α β : Type _} (g : α → Bool) (f : Nat → Bool) :
    ∀ (l₁ : List α) (l₂ : List β) (n : Nat),
      l₁.length = l₂.length →
      (∀ i (h : i < l₁.length), f (n + i) = g (l₁.get ⟨i, h⟩)) →
      ((l₂.enumFrom n).filter (fun p => ! f p.1)).map Prod.snd
        = ((l₁.zip l₂).filter (fun q => ! g q.1)).map Prod.snd := by
  intro l₁
  induction l₁ with
  | nil =>
    intro l₂ n hlen hf
    have hl₂ : l₂ = [] := List.length_eq_zero.mp (by simpa using hlen.symm)
    subst hl₂
    rfl
  | cons a t ih =>
    intro l₂ n hlen hf
    cases l₂ with
    | nil => simp at hlen
    | cons b t₂ =>
      have h0 : f n = g a := by simpa using hf 0 (by simp)
      have hrest : ∀ i (h : i < t.length), f (n + 1 + i) = g (t.get ⟨i, h⟩) := by
        intro i h
        have hidx : n + 1 + i = n + (i + 1) := by omega
        rw [hidx]
        have := hf (i + 1) (by simpa using Nat.succ_lt_succ h)
        simpa using this
      have hlen' : t.length = t₂.length := by simpa using hlen
      rw [List.enumFrom_cons, List.zip_cons_cons, List.filter_cons, List.filter_cons]
      by_cases hga : g a = true
      · rw [if_neg (by simp [h0, hga]), if_neg (by simp [hga])]
        exact ih t₂ (n + 1) hlen' hrest
      · have hga' : g a = false := by revert hga; cases g a <;> simp
        rw [if_pos (by simp [h0, hga']), if_pos (by simp [hga']),
          List.map_cons, List.map_cons, ih t₂ (n + 1) hlen' hrest]

theorem decide_mem_delIndices (data : List Point) (ex ey thr : Rat) (i : Nat)
    (h : i < data.length) :
    decide (i ∈ delIndices data ex ey thr)
      = decide (((data.get ⟨i, h⟩).x - ex) ^ 2 + ((data.get ⟨i, h⟩).y - ey) ^ 2 ≤ thr) := by
  apply decide_eq_decide.mpr
  rw [mem_delIndices]
  constructor
  · rintro ⟨h2, hc⟩; exact hc
  · intro hc; exact ⟨h, hc⟩

theorem delete_points_myData (d : Dataset) (ex ey : Rat) :
    (d.delete_points ex ey).myData
      = d.myData.filter (fun p =>
          ! decide ((p.x - ex) ^ 2 + (p.y - ey) ^ 2 ≤ d.sigmaScatter * d.sigmaScatter)) := by
  show ((d.myData.enum.filter _).map Prod.snd) = _
  rw [enum_eq_enumFrom]
  have key := map_snd_filter_enumFrom
    (g := fun p : Point =>
      decide ((p.x - ex) ^ 2 + (p.y - ey) ^ 2 ≤ d.sigmaScatter * d.sigmaScatter))
    (f := fun i => decide (i ∈ delIndices d.myData ex ey (d.sigmaScatter * d.sigmaScatter)))
    d.myData d.myData 0 rfl
    (by intro i h; simpa using decide_mem_delIndices d.myData ex ey _ i h)
  simp only [decide_not] at key ⊢
  rw [key, zip_self_eq_map, List.filter_map, List.map_map]
  show List.map (fun a => a) _ = _
  rw [List.map_id']
  rfl

theorem delete_points_myPointsID (d : Dataset) (ex ey : Rat)
    (hlen : d.myData.length = d.myPointsID.length) :
    (d.delete_points ex ey).myPointsID
      = ((d.myData.zip d.myPointsID).filter (fun q =>
          ! decide ((q.1.x - ex) ^ 2 + (q.1.y - ey) ^ 2
            ≤ d.sigmaScatter * d.sigmaScatter))).map Prod.snd := by
  show ((d.myPointsID.enum.filter _).map Prod.snd) = _
  rw [enum_eq_enumFrom]
  have key := map_snd_filter_enumFrom
    (g := fun p : Point =>
      decide ((p.x - ex) ^ 2 + (p.y - ey) ^ 2 ≤ d.sigmaScatter * d.sigmaScatter))
    (f := fun i => decide (i ∈ delIndices d.myData ex ey (d.sigmaScatter * d.sigmaScatter)))
    d.myData d.myPointsID 0 hlen
    (by intro i h; simpa using decide_mem_delIndices d.myData ex ey _ i h)
  simp only [decide_not] at key ⊢
  rw [key]

/-! ### The canvas after the deletion loop -/

theorem find_foldl_deleteStep (ids : List Nat) (j : Nat) :
    ∀ (del : List Nat) (c : Canvas),
      (del.foldl (fun c i => match ids.get? i with
        | some pid => c.delete pid
        | none => c) c).find j
      = if ∃ i ∈ del, ids.get? i = some j then none else c.find j := by
  intro del
  induction del with
  | nil => intro c; simp
  | cons i rest ih =>
    intro c
    rw [List.foldl_cons, ih]
    by_cases hmem : ∃ k ∈ rest, ids.get? k = some j
    · rw [if_pos hmem, if_pos (by obtain ⟨k, hk, hkj⟩ := hmem; exact ⟨k, List.mem_cons_of_mem i hk, hkj⟩)]
    · rw [if_neg hmem]
      cases hi : ids.get? i with
      | none =>
        simp only
        rw [if_neg]
        rintro ⟨k, hk, hkj⟩
        rcases List.mem_cons.mp hk with hk | hk
        · subst hk; rw [hi] at hkj; exact Option.noConfusion hkj
        · exact hmem ⟨k, hk, hkj⟩
      | some pid =>
        simp only
        rw [Canvas.find_delete]
        by_cases hj : j = pid
        · rw [if_pos hj, if_pos ⟨i, List.mem_cons_self i rest, by rw [hi, hj]⟩]
        · rw [if_neg hj, if_neg]
          rintro ⟨k, hk, hkj⟩
          rcases List.mem_cons.mp hk with hk | hk
          · subst hk; rw [hi] at hkj
            exact hj (Option.some.inj hkj).symm
          · exact hmem ⟨k, hk, hkj⟩

theorem nextId_foldl_deleteStep (ids : List Nat) :
    ∀ (del : List Nat) (c : Canvas),
      (del.foldl (fun c i => match ids.get? i with
        | some pid => c.delete pid
        | none => c) c).nextId = c.nextId := by
  intro del
  induction del with
  | nil => intro c; rfl
  | cons i rest ih =>
    intro c
    rw [List.foldl_cons, ih]
    cases ids.get? i <;> rfl

theorem keyBound_foldl_deleteStep (ids : List Nat) :
    ∀ (del : List Nat) (c : Canvas), c.keyBound →
      (del.foldl (fun c i => match ids.get? i with
        | some pid => c.delete pid
        | none => c) c).keyBound := by
  intro del
  induction del with
  | nil => intro c hc; exact hc
  | cons i rest ih =>
    intro c hc
    rw [List.foldl_cons]
    apply ih
    cases hi : ids.get? i with
    | none => simpa [hi] using hc
    | some pid => simpa [hi] using Canvas.keyBound_delete c pid hc

/-! ### Preservation of the invariant -/

theorem id_lt_nextId_of_WF (d : Dataset) (h : d.WF) :
    ∀ pid ∈ d.myPointsID, pid < d.canvas.nextId := by
  obtain ⟨⟨hlen, halign⟩, hnodup, hbound⟩ := h
  intro pid hpid
  obtain ⟨i, hi, hgi⟩ := List.mem_iff_getElem.mp hpid
  have h2 : i < d.myData.length := by omega
  have hfind := halign i hi h2
  rw [List.get_eq_getElem, hgi] at hfind
  exact Canvas.lt_nextId_of_find _ _ _ hbound hfind

theorem WF_draw_point (d : Dataset) (x y : Rat) (pc : String) (h : d.WF) :
    (d.draw_point x y pc).WF := by
  have hfresh := id_lt_nextId_of_WF d h
  obtain ⟨⟨hlen, halign⟩, hnodup, hbound⟩ := h
  have hL1 : (d.draw_point x y pc).myPointsID = d.myPointsID ++ [d.canvas.nextId] := rfl
  have hL2 : (d.draw_point x y pc).myData = d.myData ++ [(⟨x, y, pc⟩ : Point)] := rfl
  have hsz : (d.draw_point x y pc).sizePoint = d.sizePoint := rfl
  have hc : (d.draw_point x y pc).canvas
      = (d.canvas.create_oval (x - d.sizePoint) (y - d.sizePoint)
          (x + d.sizePoint) (y + d.sizePoint) pc).2 := rfl
  refine ⟨⟨by simp [hL1, hL2, hlen], ?_⟩, ?_, ?_⟩
  · intro i h1 h2
    rw [List.get_eq_getElem, List.get_eq_getElem]
    simp only [hL1, hL2, hsz, hc] at h1 h2 ⊢
    simp only [List.length_append, List.length_singleton] at h1 h2
    by_cases hi : i < d.myPointsID.length
    · have hi2 : i < d.myData.length := by omega
      rw [List.getElem_append_left hi, List.getElem_append_left hi2]
      have hfind := halign i hi hi2
      rw [List.get_eq_getElem, List.get_eq_getElem] at hfind
      exact Canvas.find_create_old _ _ _ _ _ _ _ _ hfind
    · have hieq : i = d.myPointsID.length := by omega
      have hieq2 : i = d.myData.length := by omega
      rw [List.getElem_concat_length _ _ _ hieq, List.getElem_concat_length _ _ _ hieq2]
      exact Canvas.find_create_self _ _ _ _ _ _ hbound
  · show (d.myPointsID ++ [d.canvas.nextId]).Nodup
    rw [List.nodup_append]
    refine ⟨hnodup, List.nodup_singleton _, ?_⟩
    intro pid hpid hpid2
    rw [List.mem_singleton] at hpid2
    have := hfresh pid hpid
    omega
  · exact Canvas.keyBound_create _ _ _ _ _ _ hbound

theorem draw_point_myData (d : Dataset) (x y : Rat) (pc : String) :
    (d.draw_point x y pc).myData = d.myData ++ [⟨x, y, pc⟩] := rfl

theorem draw_point_myPointsID (d : Dataset) (x y : Rat) (pc : String) :
    (d.draw_point x y pc).myPointsID = d.myPointsID ++ [d.canvas.nextId] := rfl

/-- The loop body of makeScatter performs the same state change as draw_point
at the sampled coordinates with the current class. -/
theorem addSample_eq_draw_point (d : Dataset) (xy : Rat × Rat) :
    d.addSample xy = d.draw_point xy.1 xy.2 d.classPoint := rfl

theorem WF_addSample (d : Dataset) (xy : Rat × Rat) (h : d.WF) : (d.addSample xy).WF := by
  rw [addSample_eq_draw_point]
  exact WF_draw_point d xy.1 xy.2 d.classPoint h

theorem WF_foldl_addSample (l : List (Rat × Rat)) :
    ∀ (d : Dataset), d.WF → (l.foldl Dataset.addSample d).WF := by
  induction l with
  | nil => intro d h; exact h
  | cons a t ih =>
    intro d h
    rw [List.foldl_cons]
    exact ih _ (WF_addSample d a h)

theorem WF_makeScatter (d : Dataset) (ex ey : Rat) (nx ny : Nat → Rat) (h : d.WF) :
    (d.makeScatter ex ey nx ny).WF :=
  WF_foldl_addSample _ d h

theorem filter_zip_map_fst {α β : Type _} (g : α → Bool) :
    ∀ (l₁ : List α) (l₂ : List β), l₁.length = l₂.length →
      ((l₁.zip l₂).filter (fun q => ! g q.1)).map Prod.fst = l₁.filter (fun a => ! g a) := by
  intro l₁
  induction l₁ with
  | nil => intro l₂ h; rfl
  | cons a t ih =>
    intro l₂ h
    cases l₂ with
    | nil => simp at h
    | cons b t₂ =>
      have h2 : t.length = t₂.length := by simpa using h
      rw [List.zip_cons_cons, List.filter_cons, List.filter_cons]
      cases hga : g a with
      | true => simpa [hga] using ih t₂ h2
      | false => simp [hga, ih t₂ h2]

theorem WF_delete_points (d : Dataset) (ex ey : Rat) (h : d.WF) :
    (d.delete_points ex ey).WF := by
  obtain ⟨⟨hlen, halign⟩, hnodup, hbound⟩ := h
  set g : Point → Bool := fun p =>
    decide ((p.x - ex) ^ 2 + (p.y - ey) ^ 2 ≤ d.sigmaScatter * d.sigmaScatter) with hg
  set zf := (d.myData.zip d.myPointsID).filter (fun q => ! g q.1) with hzf
  have hA : (d.delete_points ex ey).myData = zf.map Prod.fst := by
    rw [delete_points_myData, hzf, filter_zip_map_fst g d.myData d.myPointsID hlen]
  have hB : (d.delete_points ex ey).myPointsID = zf.map Prod.snd :=
    delete_points_myPointsID d ex ey hlen
  have hCV : (d.delete_points ex ey).canvas
      = (delIndices d.myData ex ey (d.sigmaScatter * d.sigmaScatter)).foldl
          (fun c i => match d.myPointsID.get? i with
            | some pid => c.delete pid
            | none => c) d.canvas := rfl
  have hsz : (d.delete_points ex ey).sizePoint = d.sizePoint := rfl
  have hidssub : (zf.map Prod.snd).Sublist d.myPointsID := by
    have h1 : zf.Sublist (d.myData.zip d.myPointsID) := List.filter_sublist _
    have h2 := h1.map Prod.snd
    rwa [List.map_snd_zip d.myData d.myPointsID (le_of_eq hlen.symm)] at h2
  have hmemzf : ∀ q ∈ zf,
      (d.delete_points ex ey).canvas.find q.2 = some (ovalOf d.sizePoint q.1) := by
    intro q hq
    have hqzip := List.mem_of_mem_filter hq
    have hqpred := (List.mem_filter.mp hq).2
    obtain ⟨i, hi, hqi⟩ := List.mem_iff_getElem.mp hqzip
    have hi2 : i < d.myData.length ∧ i < d.myPointsID.length := by
      rw [List.length_zip] at hi
      exact lt_inf_iff.mp hi
    rw [List.getElem_zip] at hqi
    rw [hCV, find_foldl_deleteStep]
    rw [if_neg]
    · have hfind := halign i hi2.2 hi2.1
      rw [List.get_eq_getElem, List.get_eq_getElem] at hfind
      rw [← hqi]
      exact hfind
    · rintro ⟨k, hk, hkj⟩
      rw [mem_delIndices] at hk
      obtain ⟨hklt, hkcond⟩ := hk
      have hklt2 : k < d.myPointsID.length := by omega
      rw [List.get?_eq_getElem?, List.getElem?_eq_getElem hklt2] at hkj
      have hkeq : d.myPointsID[k] = q.2 := Option.some.inj hkj
      have hq2 : q.2 = d.myPointsID[i] := by rw [← hqi]
      rw [hq2] at hkeq
      have hki : k = i := (List.Nodup.getElem_inj_iff hnodup).mp hkeq
      subst hki
      have : g q.1 = true := by
        rw [hg]
        apply decide_eq_true
        have hq1 : q.1 = d.myData[k] := by rw [← hqi]
        rw [hq1]
        rw [List.get_eq_getElem] at hkcond
        exact hkcond
      rw [this] at hqpred
      exact Bool.noConfusion hqpred
  refine ⟨⟨?_, ?_⟩, ?_, ?_⟩
  · rw [hA, hB, List.length_map, List.length_map]
  · intro i h1 h2
    rw [List.get_eq_getElem, List.get_eq_getElem]
    simp only [hA, hB, hsz] at h1 h2 ⊢
    rw [List.length_map] at h1 h2
    rw [List.getElem_map, List.getElem_map]
    exact hmemzf zf[i] (List.getElem_mem h1)
  · rw [hB]
    exact hidssub.nodup hnodup
  · rw [hCV]
    exact keyBound_foldl_deleteStep _ _ d.canvas hbound

theorem keyBound_foldl_delete :
    ∀ (ids : List Nat) (c : Canvas), c.keyBound → (ids.foldl Canvas.delete c).keyBound := by
  intro ids
  induction ids with
  | nil => intro c hc; exact hc
  | cons i rest ih =>
    intro c hc
    rw [List.foldl_cons]
    exact ih _ (Canvas.keyBound_delete c i hc)

theorem WF_clearCanvas (d : Dataset) (h : d.WF) : (d.clearCanvas).WF := by
  obtain ⟨⟨hlen, halign⟩, hnodup, hbound⟩ := h
  refine ⟨⟨rfl, ?_⟩, List.nodup_nil, ?_⟩
  · intro i h1 h2
    exact absurd h1 (by simp [Dataset.clearCanvas])
  · exact keyBound_foldl_delete d.myPointsID d.canvas hbound

theorem WF_undo (d : Dataset) (h : d.WF) : d.undo.1.WF := by
  obtain ⟨⟨hlen, halign⟩, hnodup, hbound⟩ := h
  unfold Dataset.undo
  cases hd : d.myData.getLast? with
  | none => exact ⟨⟨hlen, halign⟩, hnodup, hbound⟩
  | some p =>
    have hdne : d.myData ≠ [] := by
      intro he; rw [he] at hd; exact Option.noConfusion hd
    have hine : d.myPointsID ≠ [] := by
      intro he
      have : d.myData.length = 0 := by rw [hlen, he]; rfl
      exact hdne (List.length_eq_zero.mp this)
    cases hi : d.myPointsID.getLast? with
    | none => exact absurd (List.getLast?_eq_none_iff.mp hi) hine
    | some pid =>
      simp only
      have hpos : 0 < d.myPointsID.length := List.length_pos.mpr hine
      have hlast : pid = d.myPointsID[d.myPointsID.length - 1] := by
        rw [List.getLast?_eq_getElem?, List.getElem?_eq_getElem (by omega)] at hi
        exact (Option.some.inj hi).symm
      refine ⟨⟨?_, ?_⟩, ?_, ?_⟩
      · simp [List.length_dropLast, hlen]
      · intro i h1 h2
        have h1L : i < d.myPointsID.dropLast.length := h1
        have h2L : i < d.myData.dropLast.length := h2
        rw [List.length_dropLast] at h1L h2L
        have h1b : i < d.myPointsID.length := by omega
        have h2b : i < d.myData.length := by omega
        simp only [List.get_eq_getElem]
        rw [List.getElem_dropLast, List.getElem_dropLast]
        show (d.canvas.delete pid).find _ = _
        rw [Canvas.find_delete, if_neg]
        · have hfind := halign i h1b h2b
          rw [List.get_eq_getElem, List.get_eq_getElem] at hfind
          exact hfind
        · rw [hlast]
          intro he
          have hii := (List.Nodup.getElem_inj_iff hnodup).mp he
          omega
      · exact (List.dropLast_sublist d.myPointsID).nodup hnodup
      · exact Canvas.keyBound_delete d.canvas pid hbound

theorem WF_setLastDrawn (d : Dataset) (v : Option (Rat × Rat)) (h : d.WF) :
    ({ d with last_drawn := v } : Dataset).WF := h

theorem WF_pressButton (d : Dataset) (ex ey : Rat) (nx ny : Nat → Rat) (h : d.WF) :
    (d.pressButton ex ey nx ny).WF := by
  unfold Dataset.pressButton
  by_cases hc : d.classPoint = "erase"
  · rw [if_pos (by simpa using hc)]
    exact WF_delete_points _ ex ey (WF_setLastDrawn d _ h)
  · rw [if_neg (by simpa using hc)]
    exact WF_makeScatter _ ex ey nx ny (WF_setLastDrawn d _ h)

theorem WF_moveButton (d : Dataset) (ex ey : Rat) (nx ny : Nat → Rat) (h : d.WF) :
    (d.moveButton ex ey nx ny).WF := by
  unfold Dataset.moveButton
  cases d.last_drawn with
  | none => exact h
  | some q =>
    obtain ⟨lx, ly⟩ := q
    by_cases hth : (lx - ex) ^ 2 + (ly - ey) ^ 2 ≥ d.threshold ^ 2
    · simpa [hth] using WF_pressButton d ex ey nx ny h
    · simpa [hth] using h

theorem WF_releaseButton (d : Dataset) (ex ey : Rat) (nx ny : Nat → Rat) (h : d.WF) :
    (d.releaseButton ex ey nx ny).WF :=
  WF_setLastDrawn _ none (WF_moveButton d ex ey nx ny h)

theorem WF_importRows (df : DataFrame) :
    ∀ (rows : List (List Cell)) (d : Dataset), d.WF → (d.importRows df rows).1.WF := by
  intro rows
  induction rows with
  | nil => intro d h; exact h
  | cons row rest ih =>
    intro d h
    unfold Dataset.importRows Dataset.drawRow
    cases hx : df.cell row "x" with
    | none => simpa using h
    | some cx =>
      cases cx with
      | str s => simpa [hx] using h
      | num x =>
        cases hy : df.cell row "y" with
        | none => simpa [hx] using h
        | some cy =>
          cases cy with
          | str s => simpa [hx, hy] using h
          | num y =>
            cases hco : df.cell row "color" with
            | none => simpa [hx, hy] using h
            | some cc =>
              cases cc with
              | num q => simpa [hx, hy, hco] using h
              | str c =>
                simpa [hx, hy, hco] using ih _ (WF_draw_point d x y c h)

theorem WF_loadData (d : Dataset) (dialog : Option String)
    (fs : String → Option DataFrame) (h : d.WF) : (d.loadData dialog fs).1.WF := by
  unfold Dataset.loadData
  split
  · exact h
  · split
    · exact h
    · split
      · exact h
      · exact WF_importRows _ _ d h

theorem WF_saveData (d : Dataset) (dialog : Option String) (h : d.WF) :
    (d.saveData dialog).1.WF := by
  unfold Dataset.saveData
  cases dialog with
  | none => exact h
  | some path => exact h

theorem WF_applyOp (d : Dataset) (op : Op) (h : d.WF) : (d.applyOp op).WF := by
  cases op with
  | press ex ey nx ny => exact WF_pressButton d ex ey nx ny h
  | move ex ey nx ny => exact WF_moveButton d ex ey nx ny h
  | release ex ey nx ny => exact WF_releaseButton d ex ey nx ny h
  | addPoint x y c => exact WF_draw_point d x y c h
  | setClass c => exact h
  | setSigma v => exact h
  | setNbrPoints v => exact h
  | clear => exact WF_clearCanvas d h
  | undo => exact WF_undo d h
  | save dialog => exact WF_saveData d dialog h
  | load dialog fs => exact WF_loadData d dialog fs h

theorem WF_init (sv nv : Rat) : (Dataset.init sv nv).WF := by
  refine ⟨⟨rfl, ?_⟩, List.nodup_nil, ?_⟩
  · intro i h1 h2
    exact absurd h1 (by simp [Dataset.init])
  · intro p hp
    exact absurd hp (by simp [Dataset.init])

theorem WF_run (sv nv : Rat) (ops : List Op) :
    (ops.foldl Dataset.applyOp (Dataset.init sv nv)).WF := by
  suffices h : ∀ (d : Dataset), d.WF → (ops.foldl Dataset.applyOp d).WF from
    h _ (WF_init sv nv)
  induction ops with
  | nil => intro d h; exact h
  | cons op rest ih =>
    intro d h
    rw [List.foldl_cons]
    exact ih _ (WF_applyOp d op h)

/-! ### Scalar fields under the scatter loop -/

theorem addSample_scatterVars (d : Dataset) (a b : Rat) (xy : Rat × Rat) :
    ({ d with sigmaScatter := a, nbrPointsScatter := b } : Dataset).addSample xy
      = { d.addSample xy with sigmaScatter := a, nbrPointsScatter := b } := rfl

theorem foldl_addSample_scatterVars (l : List (Rat × Rat)) :
    ∀ (d : Dataset) (a b : Rat),
      l.foldl Dataset.addSample { d with sigmaScatter := a, nbrPointsScatter := b }
        = { l.foldl Dataset.addSample d with sigmaScatter := a, nbrPointsScatter := b } := by
  induction l with
  | nil => intro d a b; rfl
  | cons xy t ih =>
    intro d a b
    rw [List.foldl_cons, addSample_scatterVars, ih, List.foldl_cons]

theorem foldl_addSample_last_drawn (l : List (Rat × Rat)) :
    ∀ d : Dataset, (l.foldl Dataset.addSample d).last_drawn = d.last_drawn := by
  induction l with
  | nil => intro d; rfl
  | cons xy t ih =>
    intro d
    rw [List.foldl_cons, ih]
    rfl

theorem pressButton_last_drawn (d : Dataset) (ex ey : Rat) (nx ny : Nat → Rat) :
    (d.pressButton ex ey nx ny).last_drawn = some (ex, ey) := by
  unfold Dataset.pressButton
  by_cases hc : d.classPoint = "erase"
  · rw [if_pos (show ({ d with last_drawn := some (ex, ey) } : Dataset).classPoint
      = "erase" from hc)]
    rfl
  · rw [if_neg (show ¬ ({ d with last_drawn := some (ex, ey) } : Dataset).classPoint
      = "erase" from hc)]
    exact foldl_addSample_last_drawn _ _

/-! ### The claims -/

/-- C1: Alignment invariant.  Starting from a freshly constructed Dataset,
after any sequence of store operations (presses, drags, releases, explicit
point adds, class and parameter changes, clear, undo, save, load) the list of
points and the list of marker ids have the same length and are index-aligned:
the canvas item registered under the id at index i is exactly the marker of
the point at index i. -/
theorem C1_alignment_invariant (sv nv : Rat) (ops : List Op) :
    (ops.foldl Dataset.applyOp (Dataset.init sv nv)).Aligned :=
  (WF_run sv nv ops).1

theorem C1_alignment_invariant_witness :
    (([Op.addPoint 1 1 "red", Op.press 3 3 (fun _ => 0) (fun _ => 0), Op.undo,
      Op.setClass "erase", Op.press 1 1 (fun _ => 0) (fun _ => 0),
      Op.clear].foldl Dataset.applyOp (Dataset.init 10 5)).myData.length
      = ([Op.addPoint 1 1 "red", Op.press 3 3 (fun _ => 0) (fun _ => 0), Op.undo,
        Op.setClass "erase", Op.press 1 1 (fun _ => 0) (fun _ => 0),
        Op.clear].foldl Dataset.applyOp (Dataset.init 10 5)).myPointsID.length) :=
  (C1_alignment_invariant 10 5
    [Op.addPoint 1 1 "red", Op.press 3 3 (fun _ => 0) (fun _ => 0), Op.undo,
      Op.setClass "erase", Op.press 1 1 (fun _ => 0) (fun _ => 0), Op.clear]).1

/-- C3: Erase correctness.  On a length-aligned store, eraseNear keeps exactly
the points whose squared distance to the event position exceeds the squared
radius (the current sigma), filters both parallel lists by the same index set
so survivors keep their relative order and pairing, keeps the two lists the
same length, and destroys the markers of every removed index; in particular
on the example store with points at the origin, at distance 3 and at
(10, 10), erasing at the origin with radius 5 leaves exactly the point
(10, 10) and its marker id. -/
theorem C3_eraseNear_correct :
    (∀ (d : Dataset) (ex ey : Rat), d.myData.length = d.myPointsID.length →
      (d.delete_points ex ey).myData
          = d.myData.filter (fun p =>
              ! decide ((p.x - ex) ^ 2 + (p.y - ey) ^ 2
                ≤ d.sigmaScatter * d.sigmaScatter)) ∧
      (d.delete_points ex ey).myPointsID
          = ((d.myData.zip d.myPointsID).filter (fun q =>
              ! decide ((q.1.x - ex) ^ 2 + (q.1.y - ey) ^ 2
                ≤ d.sigmaScatter * d.sigmaScatter))).map Prod.snd ∧
      (d.delete_points ex ey).myData.length
          = (d.delete_points ex ey).myPointsID.length ∧
      (∀ i ∈ delIndices d.myData ex ey (d.sigmaScatter * d.sigmaScatter),
        ∀ pid, d.myPointsID.get? i = some pid →
          (d.delete_points ex ey).canvas.find pid = none)) ∧
    ((eraseExample.delete_points 0 0).myData = [⟨10, 10, "red"⟩] ∧
      (eraseExample.delete_points 0 0).myPointsID = [3]) := by
  constructor
  · intro d ex ey hlen
    refine ⟨delete_points_myData d ex ey, delete_points_myPointsID d ex ey hlen, ?_, ?_⟩
    · rw [delete_points_myData d ex ey, delete_points_myPointsID d ex ey hlen,
        ← filter_zip_map_fst _ d.myData d.myPointsID hlen, List.length_map, List.length_map]
    · intro i hi pid hpid
      have hcv : (d.delete_points ex ey).canvas
          = (delIndices d.myData ex ey (d.sigmaScatter * d.sigmaScatter)).foldl
              (fun c k => match d.myPointsID.get? k with
                | some q => c.delete q
                | none => c) d.canvas := rfl
      rw [hcv, find_foldl_deleteStep, if_pos ⟨i, hi, hpid⟩]
  · constructor
    · rw [delete_points_myData eraseExample 0 0,
        show eraseExample.myData
          = [⟨0, 0, "red"⟩, ⟨3, 0, "red"⟩, ⟨10, 10, "red"⟩] from rfl,
        show eraseExample.sigmaScatter = 5 from rfl]
      norm_num [List.filter_cons, List.filter_nil]
    · rw [delete_points_myPointsID eraseExample 0 0 rfl,
        show eraseExample.myData
          = [⟨0, 0, "red"⟩, ⟨3, 0, "red"⟩, ⟨10, 10, "red"⟩] from rfl,
        show eraseExample.myPointsID = [1, 2, 3] from rfl,
        show eraseExample.sigmaScatter = 5 from rfl]
      norm_num [List.zip_cons_cons, List.filter_cons, List.filter_nil]

theorem C3_eraseNear_correct_witness :
    (eraseExample.delete_points 0 0).myData
      = eraseExample.myData.filter (fun p =>
          ! decide ((p.x - 0) ^ 2 + (p.y - 0) ^ 2
            ≤ eraseExample.sigmaScatter * eraseExample.sigmaScatter)) :=
  (C3_eraseNear_correct.1 eraseExample 0 0 (by decide)).1

/-- C4: Undo.  On a store whose two lists are non-empty, undo removes exactly
the last point and the last marker id, deletes that marker from the canvas,
leaves every earlier point unchanged and reports no error; on a store with no
points it fails with the empty-store error instead of succeeding; and on the
concrete two-point example (a red point then a blue point) it leaves exactly
the red point with its marker, the blue marker being destroyed. -/
theorem C4_undo :
    (∀ d : Dataset, d.myData ≠ [] → d.myPointsID ≠ [] →
      ∃ pid, d.myPointsID.getLast? = some pid ∧
        d.undo = ({ d with myData := d.myData.dropLast,
                            myPointsID := d.myPointsID.dropLast,
                            canvas := d.canvas.delete pid }, none)) ∧
    (∀ d : Dataset, d.myData = [] → d.undo = (d, some StoreError.emptyStore)) ∧
    (undoExample.undo.1.myData = [⟨1, 1, "red"⟩] ∧
      undoExample.undo.2 = none ∧
      undoExample.undo.1.canvas.find 2 = none ∧
      undoExample.undo.1.canvas.find 1 = some (ovalOf 2 ⟨1, 1, "red"⟩)) := by
  refine ⟨?_, ?_, rfl, rfl, rfl, rfl⟩
  · intro d hdne hine
    obtain ⟨p, hp⟩ := Option.ne_none_iff_exists'.mp
      (fun he => hdne (List.getLast?_eq_none_iff.mp he))
    obtain ⟨pid, hpid⟩ := Option.ne_none_iff_exists'.mp
      (fun he => hine (List.getLast?_eq_none_iff.mp he))
    refine ⟨pid, hpid, ?_⟩
    unfold Dataset.undo
    rw [hp, hpid]
  · intro d hd
    unfold Dataset.undo
    rw [List.getLast?_eq_none_iff.mpr hd]

theorem C4_undo_witness :
    ∃ pid, undoExample.myPointsID.getLast? = some pid ∧
      undoExample.undo = ({ undoExample with myData := undoExample.myData.dropLast,
                                              myPointsID := undoExample.myPointsID.dropLast,
                                              canvas := undoExample.canvas.delete pid }, none) :=
  C4_undo.1 undoExample (by decide) (by decide)

theorem makeScatter_eq_foldl (d : Dataset) (ex ey : Rat) (nx ny : Nat → Rat) :
    d.makeScatter ex ey nx ny
      = ((normal ex (max (min d.sigmaScatter 50) 0)
            (max (min d.nbrPointsScatter 1000) 0).floor.toNat nx).zip
          (normal ey (max (min d.sigmaScatter 50) 0)
            (max (min d.nbrPointsScatter 1000) 0).floor.toNat ny)).foldl
          Dataset.addSample d := rfl

theorem foldl_addSample_myData (l : List (Rat × Rat)) :
    ∀ d : Dataset, (l.foldl Dataset.addSample d).myData
      = d.myData ++ l.map (fun xy => (⟨xy.1, xy.2, d.classPoint⟩ : Point)) := by
  induction l with
  | nil => intro d; simp
  | cons xy t ih =>
    intro d
    rw [List.foldl_cons, ih]
    rw [show (d.addSample xy).myData = d.myData ++ [⟨xy.1, xy.2, d.classPoint⟩] from rfl]
    rw [show (d.addSample xy).classPoint = d.classPoint from rfl]
    simp [List.append_assoc]

theorem makeScatter_myData (d : Dataset) (ex ey : Rat) (nx ny : Nat → Rat) :
    (d.makeScatter ex ey nx ny).myData
      = d.myData ++ (((normal ex (max (min d.sigmaScatter 50) 0)
            (max (min d.nbrPointsScatter 1000) 0).floor.toNat nx).zip
          (normal ey (max (min d.sigmaScatter 50) 0)
            (max (min d.nbrPointsScatter 1000) 0).floor.toNat ny)).map
          (fun xy => (⟨xy.1, xy.2, d.classPoint⟩ : Point))) := by
  rw [makeScatter_eq_foldl]
  exact foldl_addSample_myData _ d

theorem moveButton_of_last_drawn (d : Dataset) (lx ly ex ey : Rat) (nx ny : Nat → Rat)
    (h : d.last_drawn = some (lx, ly)) :
    d.moveButton ex ey nx ny
      = if (lx - ex) ^ 2 + (ly - ey) ^ 2 ≥ d.threshold ^ 2
        then d.pressButton ex ey nx ny else d := by
  unfold Dataset.moveButton
  rw [h]

theorem pressButton_of_not_erase (d : Dataset) (ex ey : Rat) (nx ny : Nat → Rat)
    (h : d.classPoint ≠ "erase") :
    d.pressButton ex ey nx ny
      = ({ d with last_drawn := some (ex, ey) } : Dataset).makeScatter ex ey nx ny := by
  simp only [Dataset.pressButton]
  rw [if_neg (show ¬ ({ d with last_drawn := some (ex, ey) } : Dataset).classPoint
      = "erase" from h)]

/-- C5: Clamping.  makeScatter reads sigma and the point count only through
the clamps into the intervals from 0 to 50 and from 0 to 1000, so a call with
sigma 1000 and count 5000 produces exactly the same store, markers and canvas
as a call with sigma 50 and count 1000 under the same noise draws; the two
resulting states differ only in the stored slider values themselves. -/
theorem C5_addCluster_clamping (d : Dataset) (ex ey : Rat) (nx ny : Nat → Rat) :
    ({ d with sigmaScatter := 1000, nbrPointsScatter := 5000 } : Dataset).makeScatter
        ex ey nx ny
      = { ({ d with sigmaScatter := 50, nbrPointsScatter := 1000 } : Dataset).makeScatter
            ex ey nx ny with
          sigmaScatter := 1000, nbrPointsScatter := 5000 } := by
  rw [makeScatter_eq_foldl, makeScatter_eq_foldl]
  rw [show ({ d with sigmaScatter := 1000, nbrPointsScatter := 5000 } : Dataset).sigmaScatter
      = 1000 from rfl]
  rw [show ({ d with sigmaScatter := 1000, nbrPointsScatter := 5000 } :
      Dataset).nbrPointsScatter = 5000 from rfl]
  rw [show ({ d with sigmaScatter := 50, nbrPointsScatter := 1000 } : Dataset).sigmaScatter
      = 50 from rfl]
  rw [show ({ d with sigmaScatter := 50, nbrPointsScatter := 1000 } :
      Dataset).nbrPointsScatter = 1000 from rfl]
  rw [show max (min (1000 : Rat) 50) 0 = max (min (50 : Rat) 50) 0 from by norm_num]
  rw [show max (min (5000 : Rat) 1000) 0 = max (min (1000 : Rat) 1000) 0 from by norm_num]
  exact foldl_addSample_scatterVars _
    ({ d with sigmaScatter := 50, nbrPointsScatter := 1000 }) 1000 5000

theorem C5_addCluster_clamping_witness :
    ({ Dataset.init 3 7 with sigmaScatter := 1000, nbrPointsScatter := 5000 } :
        Dataset).makeScatter 1 2 (fun _ => 0) (fun _ => 0)
      = { ({ Dataset.init 3 7 with sigmaScatter := 50, nbrPointsScatter := 1000 } :
            Dataset).makeScatter 1 2 (fun _ => 0) (fun _ => 0) with
          sigmaScatter := 1000, nbrPointsScatter := 5000 } :=
  C5_addCluster_clamping (Dataset.init 3 7) 1 2 (fun _ => 0) (fun _ => 0)

/-- C6 counterexample: the claim makes sampling strict at the boundary, but
the code compares with greater-or-equal.  With the last sampled position at
the origin, a move to the point at distance exactly 5 (squared displacement
exactly 25, which does not exceed 25) nevertheless produces one additional
sample. -/
theorem C6_drag_threshold_counterexample :
    ¬ (((0 : Rat) - 3) ^ 2 + ((0 : Rat) - 4) ^ 2 > 25) ∧
    moveExample.myData.length = 0 ∧
    (moveExample.moveButton 3 4 (fun _ => 0) (fun _ => 0)).myData.length = 1 := by
  refine ⟨by norm_num, rfl, ?_⟩
  rw [moveButton_of_last_drawn moveExample 0 0 3 4 _ _ rfl,
    if_pos (show ((0 : Rat) - 3) ^ 2 + ((0 : Rat) - 4) ^ 2 ≥ moveExample.threshold ^ 2 by
      rw [show moveExample.threshold = 5 from rfl]; norm_num),
    pressButton_of_not_erase moveExample 3 4 _ _ (by decide),
    makeScatter_myData]
  rw [show ({ moveExample with last_drawn := some ((3 : Rat), (4 : Rat)) } :
      Dataset).myData = [] from rfl]
  rw [show ({ moveExample with last_drawn := some ((3 : Rat), (4 : Rat)) } :
      Dataset).sigmaScatter = 0 from rfl]
  rw [show ({ moveExample with last_drawn := some ((3 : Rat), (4 : Rat)) } :
      Dataset).nbrPointsScatter = 1 from rfl]
  rw [show max (min (0 : Rat) 50) 0 = 0 from by norm_num]
  rw [show max (min (1 : Rat) 1000) 0 = 1 from by norm_num]
  rw [show (1 : Rat).floor.toNat = 1 from rfl]
  simp [normal]

/-- C6 amended: while dragging, a move event triggers a new press (sample or
erase) at the new coordinates if and only if the squared distance from the
last sampled position is at least 25 (threshold 5 squared; the code compares
with greater-or-equal, so a displacement of exactly 5 also triggers); a
triggering move also updates the last sampled position to the new
coordinates, and a non-triggering move changes nothing. -/
theorem C6_drag_debounce (d : Dataset) (lx ly ex ey : Rat) (nx ny : Nat → Rat)
    (hld : d.last_drawn = some (lx, ly)) (hth : d.threshold = 5) :
    ((lx - ex) ^ 2 + (ly - ey) ^ 2 < 25 → d.moveButton ex ey nx ny = d) ∧
    (25 ≤ (lx - ex) ^ 2 + (ly - ey) ^ 2 →
      d.moveButton ex ey nx ny = d.pressButton ex ey nx ny ∧
      (d.moveButton ex ey nx ny).last_drawn = some (ex, ey)) := by
  have hmb := moveButton_of_last_drawn d lx ly ex ey nx ny hld
  rw [hth, show ((5 : Rat)) ^ 2 = 25 from by norm_num] at hmb
  constructor
  · intro hlt
    rw [hmb, if_neg (not_le.mpr hlt)]
  · intro hge
    rw [hmb, if_pos hge]
    exact ⟨rfl, pressButton_last_drawn d ex ey nx ny⟩

theorem C6_drag_debounce_witness :
    (moveExample.moveButton 2 0 (fun _ => 0) (fun _ => 0) = moveExample) ∧
    (moveExample.moveButton 6 0 (fun _ => 0) (fun _ => 0)
      = moveExample.pressButton 6 0 (fun _ => 0) (fun _ => 0)) :=
  ⟨(C6_drag_debounce moveExample 0 0 2 0 (fun _ => 0) (fun _ => 0) rfl rfl).1
      (by norm_num),
    ((C6_drag_debounce moveExample 0 0 6 0 (fun _ => 0) (fun _ => 0) rfl rfl).2
      (by norm_num)).1⟩

/-- C8: Cancelled dialogs.  A cancelled save dialog makes saveData return at
once: no table is produced for writing and the store is unchanged.  A
cancelled open dialog makes loadData fail on the empty selection (read_csv
raises on it) with the store unchanged and no points added. -/
theorem C8_cancelled_dialogs (d : Dataset) (fs : String → Option DataFrame) :
    d.saveData none = (d, none) ∧
    d.loadData none fs = (d, some FileError.invalidFile) :=
  ⟨rfl, rfl⟩

/-- C10: Moves with no active press.  When the last sampled position is
cleared, a move event returns the state completely unchanged; a release
always clears the last sampled position; hence any move following a release
is a complete no-op. -/
theorem C10_move_noop_when_idle :
    (∀ (d : Dataset) (ex ey : Rat) (nx ny : Nat → Rat),
      d.last_drawn = none → d.moveButton ex ey nx ny = d) ∧
    (∀ (d : Dataset) (ex ey : Rat) (nx ny : Nat → Rat),
      (d.releaseButton ex ey nx ny).last_drawn = none) ∧
    (∀ (d : Dataset) (ex ey ex2 ey2 : Rat) (nx ny nx2 ny2 : Nat → Rat),
      (d.releaseButton ex ey nx ny).moveButton ex2 ey2 nx2 ny2
        = d.releaseButton ex ey nx ny) := by
  have hmove : ∀ (d : Dataset) (ex ey : Rat) (nx ny : Nat → Rat),
      d.last_drawn = none → d.moveButton ex ey nx ny = d := by
    intro d ex ey nx ny h
    unfold Dataset.moveButton
    rw [h]
  exact ⟨hmove, fun d ex ey nx ny => rfl,
    fun d ex ey ex2 ey2 nx ny nx2 ny2 => hmove _ ex2 ey2 nx2 ny2 rfl⟩

theorem C10_move_noop_when_idle_witness :
    (Dataset.init 10 5).moveButton 100 100 (fun _ => 0) (fun _ => 0)
      = Dataset.init 10 5 :=
  C10_move_noop_when_idle.1 (Dataset.init 10 5) 100 100 (fun _ => 0) (fun _ => 0) rfl

theorem foldl_draw_point_myData (pts : List Point) :
    ∀ d : Dataset,
      (pts.foldl (fun e p => e.draw_point p.x p.y p.color) d).myData
        = d.myData ++ pts := by
  induction pts with
  | nil => intro d; simp
  | cons p t ih =>
    intro d
    rw [List.foldl_cons, ih]
    rw [show (d.draw_point p.x p.y p.color).myData
        = d.myData ++ [⟨p.x, p.y, p.color⟩] from rfl]
    rw [show (⟨p.x, p.y, p.color⟩ : Point) = p from rfl]
    simp

theorem decode_encode (c : String)
    (h : c = "red" ∨ c = "green" ∨ c = "blue") :
    decodeColor (encodeColor c) = .str c := by
  rcases h with h | h | h <;> subst h <;> rfl

theorem importRows_ok (R : List (List Cell)) :
    ∀ (pts : List Point) (d : Dataset),
      d.importRows ⟨["x", "y", "color"], R⟩
          (pts.map (fun p => [Cell.num p.x, Cell.num p.y, Cell.str p.color]))
        = (pts.foldl (fun e p => e.draw_point p.x p.y p.color) d, none) := by
  intro pts
  induction pts with
  | nil => intro d; rfl
  | cons p t ih =>
    intro d
    rw [List.map_cons, List.foldl_cons]
    show (d.draw_point p.x p.y p.color).importRows ⟨["x", "y", "color"], R⟩
        (t.map (fun q => [Cell.num q.x, Cell.num q.y, Cell.str q.color])) = _
    exact ih _

/-- C7: Export format.  On a store whose labels are among the three colors,
saveData builds the table with header x, y, color, one row per stored point
in store order, carrying the raw coordinates (no normalization is executed;
the historical scaling is commented out) and the color mapped by the fixed
code red 0, green 1, blue 2 as described by the design document. -/
theorem C7_export_format (d : Dataset) (path : String)
    (hcolors : ∀ p ∈ d.myData, p.color = "red" ∨ p.color = "green" ∨ p.color = "blue") :
    (d.saveData (some path)).2
      = some (path, { cols := ["x", "y", "color"],
                      rows := d.myData.map specExportRow }) := by
  show some (path, d.saveTable) = _
  unfold Dataset.saveTable
  have hrows : d.myData.map (fun p => [Cell.num p.x, Cell.num p.y, encodeColor p.color])
      = d.myData.map specExportRow := by
    apply List.map_congr_left
    intro p hp
    rcases hcolors p hp with h | h | h <;>
      simp [specExportRow, encodeColor, colorCode, h]
  rw [hrows]

theorem C7_export_format_witness :
    ((((Dataset.init 10 5).draw_point 1 2 "red").draw_point 3 4 "blue").saveData
        (some "out")).2
      = some ("out", { cols := ["x", "y", "color"],
                       rows := (((Dataset.init 10 5).draw_point 1 2 "red").draw_point 3 4
                         "blue").myData.map specExportRow }) :=
  C7_export_format _ "out" (by decide)

/-- C2: Round trip.  For any non-empty point list with labels among the three
colors, building a store by addPoint calls, exporting it and importing the
resulting table into a fresh store reproduces exactly the original point
sequence, coordinates and labels, with no import error. -/
theorem C2_save_load_roundtrip (sv nv sv2 nv2 : Rat) (pts : List Point) (path : String)
    (hne : pts ≠ [])
    (hcolors : ∀ p ∈ pts, p.color = "red" ∨ p.color = "green" ∨ p.color = "blue") :
    ∃ df : DataFrame,
      ((buildFromAdds sv nv pts).saveData (some path)).2 = some (path, df) ∧
      ((Dataset.init sv2 nv2).loadData (some path) (fun _ => some df)).2 = none ∧
      ((Dataset.init sv2 nv2).loadData (some path) (fun _ => some df)).1.myData = pts ∧
      (buildFromAdds sv nv pts).myData = pts := by
  have hdata : (buildFromAdds sv nv pts).myData = pts := by
    unfold buildFromAdds
    rw [foldl_draw_point_myData]
    simp [Dataset.init]
  have hsave : (buildFromAdds sv nv pts).saveTable
      = ⟨["x", "y", "color"],
        pts.map (fun p => [Cell.num p.x, Cell.num p.y, encodeColor p.color])⟩ := by
    unfold Dataset.saveTable
    rw [hdata]
  have hrows : (pts.map (fun p =>
        [Cell.num p.x, Cell.num p.y, encodeColor p.color])).map (decodeRow 2)
      = pts.map (fun p => [Cell.num p.x, Cell.num p.y, Cell.str p.color]) := by
    rw [List.map_map]
    apply List.map_congr_left
    intro p hp
    show decodeRow 2 [Cell.num p.x, Cell.num p.y, encodeColor p.color] = _
    show [Cell.num p.x, Cell.num p.y, encodeColor p.color].set 2
        (decodeColor (encodeColor p.color)) = _
    rw [decode_encode p.color (hcolors p hp)]
    rfl
  have hload : (Dataset.init sv2 nv2).loadData (some path)
      (fun _ => some ((buildFromAdds sv nv pts).saveTable))
      = (pts.foldl (fun e p => e.draw_point p.x p.y p.color) (Dataset.init sv2 nv2),
        none) := by
    rw [hsave]
    show (Dataset.init sv2 nv2).importRows
        ⟨["x", "y", "color"],
          (pts.map (fun p =>
            [Cell.num p.x, Cell.num p.y, encodeColor p.color])).map (decodeRow 2)⟩
        ((pts.map (fun p =>
          [Cell.num p.x, Cell.num p.y, encodeColor p.color])).map (decodeRow 2)) = _
    rw [hrows]
    exact importRows_ok _ pts (Dataset.init sv2 nv2)
  refine ⟨(buildFromAdds sv nv pts).saveTable, rfl, ?_, ?_, hdata⟩
  · rw [hload]
  · rw [hload]
    show (pts.foldl (fun e p => e.draw_point p.x p.y p.color)
        (Dataset.init sv2 nv2)).myData = pts
    rw [foldl_draw_point_myData]
    simp [Dataset.init]

theorem C2_save_load_roundtrip_witness :
    ∃ df : DataFrame,
      ((buildFromAdds 10 5 [⟨1, 2, "red"⟩, ⟨3, 4, "blue"⟩]).saveData (some "f")).2
          = some ("f", df) ∧
      ((Dataset.init 10 5).loadData (some "f") (fun _ => some df)).2 = none ∧
      ((Dataset.init 10 5).loadData (some "f") (fun _ => some df)).1.myData
          = [⟨1, 2, "red"⟩, ⟨3, 4, "blue"⟩] ∧
      (buildFromAdds 10 5 [⟨1, 2, "red"⟩, ⟨3, 4, "blue"⟩]).myData
          = [⟨1, 2, "red"⟩, ⟨3, 4, "blue"⟩] :=
  C2_save_load_roundtrip 10 5 10 5 [⟨1, 2, "red"⟩, ⟨3, 4, "blue"⟩] "f"
    (by decide) (by decide)

/-- C9: Import validation.  Feeding loadData a malformed table surfaces the
invalid-file fault instead of silently dropping or storing the bad rows: a
table with no color column fails before touching the store, a non-numeric
coordinate fails on its row, a color code outside 0, 1, 2 fails on its row,
and in a table with a good row before a bad one the good row is imported, the
bad row is not stored and the fault is still surfaced. -/
theorem C9_import_validation (d : Dataset) (path : String) :
    d.loadData (some path) (fun _ => some dfMissingColor)
        = (d, some FileError.invalidFile) ∧
    d.loadData (some path) (fun _ => some dfBadCoord)
        = (d, some FileError.invalidFile) ∧
    d.loadData (some path) (fun _ => some dfBadCode)
        = (d, some FileError.invalidFile) ∧
    (d.loadData (some path) (fun _ => some dfGoodThenBad)).2
        = some FileError.invalidFile ∧
    (d.loadData (some path) (fun _ => some dfGoodThenBad)).1.myData
        = d.myData ++ [⟨1, 2, "red"⟩] :=
  ⟨rfl, rfl, rfl, rfl, rfl⟩
